import Mathlib

/-!
# Verification of `generate_xcodeproj_structure.py` (rusel95/WhiteNoise)

A shallow embedding of the single Python script of this repository.

The script manipulates nested Python dictionaries whose values are either
strings or further dictionaries; we model such a value as `PyVal`, and a
dictionary as an insertion-ordered association list `List (String × PyVal)`
(Python 3.7+ dicts preserve insertion order; assignment to an existing key
replaces the value in place, assignment to a fresh key appends at the end).

The filesystem consulted by `scan_directory` is abstracted as a record `FS`
of the query functions the script calls (`os.path.exists`, `Path.glob`
filtered through `is_file`, `os.listdir`, `os.path.isdir`).
-/

set_option autoImplicit false

/-- A Python value as used by this script: a string, or a dict whose values
are again such values (`structure`, the node dicts, the children dicts). -/
inductive PyVal where
  | str : String → PyVal
  | dict : List (String × PyVal) → PyVal

/-- Python `d.get(k)` / `d[k]` lookup on an (insertion-ordered) dict. -/
def lookupKey : List (String × PyVal) → String → Option PyVal
  | [], _ => none
  | (k2, v) :: rest, k => if k2 = k then some v else lookupKey rest k

/-- Python `d[k] = v`: replace in place if the key is present, else append. -/
def setKey : List (String × PyVal) → String → PyVal → List (String × PyVal)
  | [], k, v => [(k, v)]
  | (k2, v2) :: rest, k, v =>
      if k2 = k then (k, v) :: rest else (k2, v2) :: setKey rest k v

/-- Python `k in d`. -/
def hasKey (es : List (String × PyVal)) (k : String) : Bool :=
  (lookupKey es k).isSome

/-- Python `d.get("type") == t` (a missing key or a dict value compares
unequal to the string `t`, exactly as in Python). -/
def typeIs (es : List (String × PyVal)) (t : String) : Bool :=
  match lookupKey es "type" with
  | some (.str u) => u = t
  | _ => false

/-- Python `value["path"]` on a file node.  Every `type == "file"` node built
by this script carries a string `"path"`, so the fallback (where Python would
raise `KeyError` / compare a dict) is unreachable in all uses below. -/
def getPathStr (es : List (String × PyVal)) : String :=
  match lookupKey es "path" with
  | some (.str p) => p
  | _ => ""

/-- Python `name.startswith('.')`. -/
def startsWithDot (s : String) : Bool :=
  match s.data with
  | [] => false
  | c :: _ => c = '.'

/-- Python `d[k1][k2]...[kn][k] = x`, navigating the key path `ks` and then
assigning key `k`.  Every key on a navigated path exists and maps to a dict
in all uses below (the hard-coded template provides them), so the missing-key
case (Python `KeyError`) and the string case (Python `TypeError`) are
unreachable and modelled as no-ops. -/
def setAtL (es : List (String × PyVal)) (ks : List String) (k : String)
    (x : PyVal) : List (String × PyVal) :=
  match ks with
  | [] => setKey es k x
  | k1 :: ks2 =>
    match lookupKey es k1 with
    | some (.dict es1) => setKey es k1 (.dict (setAtL es1 ks2 k x))
    | _ => es

/-- Read access along a key path (used only to state theorems). -/
def getAtL (es : List (String × PyVal)) (ks : List String) : Option PyVal :=
  match ks with
  | [] => some (.dict es)
  | k1 :: ks2 =>
    match lookupKey es k1 with
    | some (.dict es1) => getAtL es1 ks2
    | _ => none

/-- Python `os.path.join` in the POSIX normal case exercised by the script
(no absolute second component, no trailing separator on the first). -/
def joinPath (a b : String) : String := a ++ "/" ++ b

/-- The filesystem queries the script performs, abstracted.
`glob dir pat` returns the names of the entries of `dir` matching `pat`
(the script then filters them through `isFile` on the joined path, mirroring
`file.is_file()`); `listdir` is `os.listdir`; `isDir` is `os.path.isdir`. -/
structure FS where
  pathExists : String → Bool
  glob : String → String → List String
  isFile : String → Bool
  listdir : String → List String
  isDir : String → Bool

/-- The `groups_to_scan` list of `(group name, glob pattern)` pairs. -/
def groups_to_scan : List (String × String) :=
  [("Models", "*.swift"),
   ("Views", "*.swift"),
   ("ViewModels", "*.swift"),
   ("Services", "*.swift"),
   ("Constants", "*.swift"),
   ("Extensions", "*.swift"),
   ("Resources", "*.json")]

/-- The builder `scan_directory(base_path)`: the hard-coded template, then the scan of the
seven `groups_to_scan` directories, then the one-level recursive scan of
`Sounds`.  A direct transcription of the source. -/
def scan_directory (fs : FS) (base_path : String) : List (String × PyVal) :=
  let st : List (String × PyVal) :=
    [("WhiteNoise", .dict [
      ("type", .str "group"),
      ("path", .str "WhiteNoise"),
      ("children", .dict [
        ("App", .dict [
          ("type", .str "group"),
          ("children", .dict [
            ("WhiteNoiseApp.swift", .dict [("type", .str "file"), ("path", .str "WhiteNoise/WhiteNoiseApp.swift")]),
            ("Info.plist", .dict [("type", .str "file"), ("path", .str "WhiteNoise/Info.plist")]),
            ("WhiteNoise.entitlements", .dict [("type", .str "file"), ("path", .str "WhiteNoise/WhiteNoise.entitlements")]),
            ("LaunchScreen.storyboard", .dict [("type", .str "file"), ("path", .str "WhiteNoise/LaunchScreen.storyboard")])])]),
        ("Models", .dict [
          ("type", .str "group"),
          ("path", .str "WhiteNoise/Models"),
          ("children", .dict [])]),
        ("Views", .dict [
          ("type", .str "group"),
          ("path", .str "WhiteNoise/Views"),
          ("children", .dict [])]),
        ("ViewModels", .dict [
          ("type", .str "group"),
          ("path", .str "WhiteNoise/ViewModels"),
          ("children", .dict [])]),
        ("Services", .dict [
          ("type", .str "group"),
          ("path", .str "WhiteNoise/Services"),
          ("children", .dict [])]),
        ("Constants", .dict [
          ("type", .str "group"),
          ("path", .str "WhiteNoise/Constants"),
          ("children", .dict [])]),
        ("Extensions", .dict [
          ("type", .str "group"),
          ("path", .str "WhiteNoise/Extensions"),
          ("children", .dict [])]),
        ("Resources", .dict [
          ("type", .str "group"),
          ("path", .str "WhiteNoise/Resources"),
          ("children", .dict [])]),
        ("Sounds", .dict [
          ("type", .str "group"),
          ("path", .str "WhiteNoise/Sounds"),
          ("children", .dict [])]),
        ("Assets.xcassets", .dict [
          ("type", .str "folder"),
          ("path", .str "WhiteNoise/Assets.xcassets")]),
        ("Preview Content", .dict [
          ("type", .str "group"),
          ("path", .str "WhiteNoise/Preview Content"),
          ("children", .dict [
            ("Preview Assets.xcassets", .dict [
              ("type", .str "folder"),
              ("path", .str "WhiteNoise/Preview Content/Preview Assets.xcassets")])])])])])]
  let st := groups_to_scan.foldl (fun st gp =>
    let group_path := joinPath (joinPath base_path "WhiteNoise") gp.1
    if fs.pathExists group_path then
      (fs.glob group_path gp.2).foldl (fun st2 name =>
        if fs.isFile (joinPath group_path name) then
          setAtL st2 ["WhiteNoise", "children", gp.1, "children"] name
            (.dict [("type", .str "file"),
                    ("path", .str ("WhiteNoise/" ++ gp.1 ++ "/" ++ name))])
        else st2) st
    else st) st
  let sounds_path := joinPath (joinPath base_path "WhiteNoise") "Sounds"
  if fs.pathExists sounds_path then
    (fs.listdir sounds_path).foldl (fun st subdir =>
      let subdir_path := joinPath sounds_path subdir
      if fs.isDir subdir_path then
        let st := setAtL st ["WhiteNoise", "children", "Sounds", "children"] subdir
          (.dict [("type", .str "group"),
                  ("path", .str ("WhiteNoise/Sounds/" ++ subdir)),
                  ("children", .dict [])])
        (fs.glob subdir_path "*").foldl (fun st2 name =>
          if fs.isFile (joinPath subdir_path name) && !startsWithDot name then
            setAtL st2 ["WhiteNoise", "children", "Sounds", "children", subdir, "children"] name
              (.dict [("type", .str "file"),
                      ("path", .str ("WhiteNoise/Sounds/" ++ subdir ++ "/" ++ name))])
          else st2) st
      else st) st
  else st

/-- A value produced by `lookupKey` is structurally smaller than the list it
was found in (used for the termination of the recursive traversals below). -/
theorem sizeOf_lookupKey {es : List (String × PyVal)} {k : String} {v : PyVal}
    (h : lookupKey es k = some v) : sizeOf v < sizeOf es := by
  induction es with
  | nil => simp [lookupKey] at h
  | cons p rest ih =>
    obtain ⟨k2, v2⟩ := p
    by_cases hk : k2 = k
    · simp [lookupKey, hk] at h
      subst h
      simp
      omega
    · simp [lookupKey, hk] at h
      have := ih h
      simp
      omega

/-- The printer `print_structure(structure, indent)`: the printed lines, each modelled as
an (indent level, text) pair; the actual console line is the text preceded by
two spaces per indent level.  In the `group` branch, a `"children"` value
that is a string would make Python raise (`str` has no `.items()`); that case
never arises in this program and is modelled as producing no lines. -/
def print_structure (st : List (String × PyVal)) (indent : Nat) :
    List (Nat × String) :=
  match st with
  | [] => []
  | (key, value) :: rest =>
    (match value with
     | .str _ => []
     | .dict es =>
       if typeIs es "group" then
         (indent, "📁 " ++ key ++ "/") ::
         (match h : lookupKey es "children" with
          | some (.dict cs) => print_structure cs (indent + 1)
          | _ => [])
       else if typeIs es "file" then
         [(indent, "📄 " ++ key)]
       else if typeIs es "folder" then
         [(indent, "📦 " ++ key)]
       else
         (indent, key) :: print_structure es (indent + 1)) ++
    print_structure rest indent
termination_by sizeOf st
decreasing_by
  all_goals try have h2 := sizeOf_lookupKey h
  all_goals simp_all
  all_goals omega

/-- One record of the flat file list: `{"name": .., "path": .., "group": ..}`. -/
structure FileRec where
  name : String
  path : String
  group : String
deriving DecidableEq, Repr

/-- The inner `traverse(node, current_group)` of `generate_file_list`
(renamed here to avoid ambiguity with the library's `traverse`):
depth-first over the children mapping, emitting one record per
`type == "file"` node, descending into `type == "group"` nodes with the key
appended to the slash-joined group string, and into any other
children-carrying node with the group string unchanged. -/
def traverseFiles (node : List (String × PyVal)) (current_group : String) :
    List FileRec :=
  match node with
  | [] => []
  | (key, value) :: rest =>
    (match value with
     | .str _ => []
     | .dict es =>
       if typeIs es "file" then
         [⟨key, getPathStr es, current_group⟩]
       else if typeIs es "group" && hasKey es "children" then
         match h : lookupKey es "children" with
         | some (.dict cs) =>
           traverseFiles cs (if current_group = "" then key
                        else current_group ++ "/" ++ key)
         | _ => []
       else if hasKey es "children" then
         match h : lookupKey es "children" with
         | some (.dict cs) => traverseFiles cs current_group
         | _ => []
       else []) ++
    traverseFiles rest current_group
termination_by sizeOf node
decreasing_by
  all_goals try have h2 := sizeOf_lookupKey h
  all_goals simp_all
  all_goals omega

/-- The flattener `generate_file_list(structure)`: the flat list of file records
(the unused `group_name` default parameter of the source is dropped;
`traverseFiles` starts from the empty group string). -/
def generate_file_list (st : List (String × PyVal)) : List FileRec :=
  traverseFiles st ""


/-! ## Derived closed form of `scan_directory`

`scan_directory` only ever mutates the children mappings of the seven scanned
groups and of `Sounds`; `mkTree` is the template with those eight mappings as
parameters, and `scan_directory` is proved equal to `mkTree` applied to
directly-computed children lists. -/

/-- A `{"type": "file", "path": p}` node. -/
def fileNode (p : String) : PyVal :=
  .dict [("type", .str "file"), ("path", .str p)]

/-- A `{"type": "group", "path": p, "children": cs}` node. -/
def groupNode (p : String) (cs : List (String × PyVal)) : PyVal :=
  .dict [("type", .str "group"), ("path", .str p), ("children", .dict cs)]

/-- A `{"type": "folder", "path": p}` node. -/
def folderNode (p : String) : PyVal :=
  .dict [("type", .str "folder"), ("path", .str p)]

/-- The children mapping of the template's root group, with the eight
scanned children mappings abstracted. -/
def mkChildren (m v vm s c e r sd : List (String × PyVal)) :
    List (String × PyVal) :=
  [("App", .dict [
      ("type", .str "group"),
      ("children", .dict [
        ("WhiteNoiseApp.swift", fileNode "WhiteNoise/WhiteNoiseApp.swift"),
        ("Info.plist", fileNode "WhiteNoise/Info.plist"),
        ("WhiteNoise.entitlements", fileNode "WhiteNoise/WhiteNoise.entitlements"),
        ("LaunchScreen.storyboard", fileNode "WhiteNoise/LaunchScreen.storyboard")])]),
   ("Models", groupNode "WhiteNoise/Models" m),
   ("Views", groupNode "WhiteNoise/Views" v),
   ("ViewModels", groupNode "WhiteNoise/ViewModels" vm),
   ("Services", groupNode "WhiteNoise/Services" s),
   ("Constants", groupNode "WhiteNoise/Constants" c),
   ("Extensions", groupNode "WhiteNoise/Extensions" e),
   ("Resources", groupNode "WhiteNoise/Resources" r),
   ("Sounds", groupNode "WhiteNoise/Sounds" sd),
   ("Assets.xcassets", folderNode "WhiteNoise/Assets.xcassets"),
   ("Preview Content", groupNode "WhiteNoise/Preview Content" [
     ("Preview Assets.xcassets",
      folderNode "WhiteNoise/Preview Content/Preview Assets.xcassets")])]

/-- The template tree with the eight scanned children mappings abstracted. -/
def mkTree (m v vm s c e r sd : List (String × PyVal)) :
    List (String × PyVal) :=
  [("WhiteNoise", .dict [
    ("type", .str "group"),
    ("path", .str "WhiteNoise"),
    ("children", .dict (mkChildren m v vm s c e r sd))])]

/-- Children mapping produced for one scanned group, starting from `init`
(always `[]` in the program): every globbed name passing `is_file` is
assigned a file node keyed by name. -/
def scanGroupFiles (fs : FS) (base_path group_name pat : String)
    (init : List (String × PyVal)) : List (String × PyVal) :=
  let group_path := joinPath (joinPath base_path "WhiteNoise") group_name
  if fs.pathExists group_path then
    (fs.glob group_path pat).foldl (fun acc name =>
      if fs.isFile (joinPath group_path name) then
        setKey acc name
          (.dict [("type", .str "file"),
                  ("path", .str ("WhiteNoise/" ++ group_name ++ "/" ++ name))])
      else acc) init
  else init

/-- Children mapping produced for one `Sounds` subdirectory. -/
def scanSoundsDir (fs : FS) (subdir_path subdir : String) :
    List (String × PyVal) :=
  (fs.glob subdir_path "*").foldl (fun cs name =>
    if fs.isFile (joinPath subdir_path name) && !startsWithDot name then
      setKey cs name
        (.dict [("type", .str "file"),
                ("path", .str ("WhiteNoise/Sounds/" ++ subdir ++ "/" ++ name))])
    else cs) []

/-- Children mapping produced for the `Sounds` group, starting from `init`
(always `[]` in the program). -/
def scanSounds (fs : FS) (sounds_path : String)
    (init : List (String × PyVal)) : List (String × PyVal) :=
  if fs.pathExists sounds_path then
    (fs.listdir sounds_path).foldl (fun sd subdir =>
      let subdir_path := joinPath sounds_path subdir
      if fs.isDir subdir_path then
        setKey sd subdir
          (.dict [("type", .str "group"),
                  ("path", .str ("WhiteNoise/Sounds/" ++ subdir)),
                  ("children", .dict (scanSoundsDir fs subdir_path subdir))])
      else sd) init
  else init

/-! ## Spec-side definitions used to state the claims -/

/-- JSON values, for the `json.dump` / `json.load` round trip of C5.
`toJson` embeds the tree into this universe exactly as `json.dump` writes
nested dicts of strings; `fromJson` is the one-sided inverse `json.load`
restricted back to string/object values. -/
inductive Json where
  | null
  | bool (b : Bool)
  | num (n : Int)
  | str (s : String)
  | arr (elems : List Json)
  | obj (fields : List (String × Json))

mutual

/-- Serialization of a `PyVal` to JSON (what `json.dump` emits). -/
def toJson : PyVal → Json
  | .str s => .str s
  | .dict es => .obj (toJsonEntries es)

/-- Serialization of dict entries, in insertion order. -/
def toJsonEntries : List (String × PyVal) → List (String × Json)
  | [] => []
  | (k, v) :: rest => (k, toJson v) :: toJsonEntries rest

end

mutual

/-- Parsing a JSON value back into a `PyVal` (what `json.load` yields for a
document written from string/dict values; other JSON values never occur). -/
def fromJson : Json → Option PyVal
  | .str s => some (.str s)
  | .obj fields =>
    match fromJsonEntries fields with
    | some es => some (.dict es)
    | none => none
  | _ => none

/-- Parsing of object fields. -/
def fromJsonEntries : List (String × Json) → Option (List (String × PyVal))
  | [] => some []
  | (k, j) :: rest =>
    match fromJson j, fromJsonEntries rest with
    | some v, some es => some ((k, v) :: es)
    | _, _ => none

end

/-- Splitting a character list at every occurrence of `c`
(`"a/b/c".split("/") = ["a","b","c"]`; an empty list yields one empty
segment, like Python and Lean string splitting). -/
def splitChar (c : Char) : List Char → List (List Char)
  | [] => [[]]
  | x :: xs =>
    if x = c then [] :: splitChar c xs
    else
      match splitChar c xs with
      | [] => [[x]]
      | g :: gs => (x :: g) :: gs

/-- Splitting a string on `"/"` (the claims speak of splitting the `group`
string on the separator). -/
def splitSlash (s : String) : List String :=
  (splitChar '/' s.data).map fun l => String.mk l

/-- Spec-side relation for C1: `FileChain st chain name path` holds when,
descending from the top-level mapping `st` through group nodes whose keys
are listed in `chain` (in order), one reaches a `type == "file"` node keyed
`name` carrying path `path`.  `chain` is thus "the chain of ancestor group
names from the root group down to, but excluding, the file". -/
inductive FileChain :
    List (String × PyVal) → List String → String → String → Prop where
  | file {st : List (String × PyVal)} {name path : String}
      {es : List (String × PyVal)}
      (hmem : (name, PyVal.dict es) ∈ st)
      (htype : typeIs es "file" = true)
      (hpath : getPathStr es = path) :
      FileChain st [] name path
  | group {st : List (String × PyVal)} {gk : String}
      {es cs : List (String × PyVal)} {chain : List String}
      {name path : String}
      (hmem : (gk, PyVal.dict es) ∈ st)
      (htype : typeIs es "group" = true)
      (hch : lookupKey es "children" = some (.dict cs))
      (hrest : FileChain cs chain name path) :
      FileChain st (gk :: chain) name path

/-- Spec-side collection for C8: the `(name, path)` pairs of every
`type == "file"` node anywhere in the tree (descending into every
`children` mapping).  Emitted file records must come from this set;
`folder`-typed leaves never contribute to it. -/
def fileLeafPairs : List (String × PyVal) → List (String × String)
  | [] => []
  | (k, v) :: rest =>
    (match v with
     | .str _ => []
     | .dict es =>
       (if typeIs es "file" then [(k, getPathStr es)] else []) ++
       (match h : lookupKey es "children" with
        | some (.dict cs) => fileLeafPairs cs
        | _ => [])) ++
    fileLeafPairs rest
termination_by st => sizeOf st
decreasing_by
  all_goals try have h2 := sizeOf_lookupKey h
  all_goals simp_all
  all_goals omega

/-- Spec-side check for C7: a `path` value, when present, is a string that
is the project-root-relative name `"WhiteNoise"` or extends it with a
forward-slash separator. -/
def pathValOk (es : List (String × PyVal)) : Bool :=
  match lookupKey es "path" with
  | none => true
  | some (.str p) => p == "WhiteNoise" || List.isPrefixOf "WhiteNoise/".data p.data
  | some (.dict _) => false

mutual

/-- Spec-side invariant for C7, checked at every node reachable through
`children` mappings: every sibling key is unique and every node satisfies
`nodeB`. -/
def wellFormedEntries : List (String × PyVal) → Bool
  | [] => true
  | (k, v) :: rest =>
    nodeB v &&
    !(rest.any fun p => p.1 == k) &&
    wellFormedEntries rest
termination_by st => sizeOf st
decreasing_by
  all_goals simp_all
  all_goals omega

/-- Spec-side per-node invariant for C7: the node is a dict whose `type` is
exactly one of `"group"`, `"file"`, `"folder"`; a node carrying a
`children` key is a group; its `path`, when present, is root-relative
slash-joined; and its children mapping (if any) is again well-formed. -/
def nodeB : PyVal → Bool
  | .str _ => false
  | .dict es =>
    (typeIs es "group" || typeIs es "file" || typeIs es "folder") &&
    (!hasKey es "children" || typeIs es "group") &&
    pathValOk es &&
    (match h : lookupKey es "children" with
     | some (.dict cs) => wellFormedEntries cs
     | some (.str _) => false
     | none => true)
termination_by v => sizeOf v
decreasing_by
  all_goals try have h2 := sizeOf_lookupKey h
  all_goals simp_all
  all_goals omega

end

/-- A filesystem whose `Sounds` directory contains exactly the subdirectory
`Rain`, holding `rain1.mp3`, `rain2.mp3` and the hidden file `.DS_Store`
(used to witness C4). -/
def rainFS : FS :=
  { pathExists := fun p => p == "/r/WhiteNoise/Sounds"
    glob := fun p pat =>
      if p == "/r/WhiteNoise/Sounds/Rain" && pat == "*" then
        ["rain1.mp3", "rain2.mp3", ".DS_Store"]
      else []
    isFile := fun p =>
      p == "/r/WhiteNoise/Sounds/Rain/rain1.mp3" ||
      p == "/r/WhiteNoise/Sounds/Rain/rain2.mp3" ||
      p == "/r/WhiteNoise/Sounds/Rain/.DS_Store"
    listdir := fun p => if p == "/r/WhiteNoise/Sounds" then ["Rain"] else []
    isDir := fun p => p == "/r/WhiteNoise/Sounds/Rain" }

/-- A filesystem on which every query fails/returns nothing (a root under
which the `WhiteNoise` subtree is entirely absent). -/
def emptyFS : FS :=
  { pathExists := fun _ => false
    glob := fun _ _ => []
    isFile := fun _ => false
    listdir := fun _ => []
    isDir := fun _ => false }

/-- A filesystem whose `Models` directory contains exactly `Foo.swift` and
`Bar.swift` (used to witness C3). -/
def modelsFS : FS :=
  { pathExists := fun p => p == "/r/WhiteNoise/Models"
    glob := fun p pat =>
      if p == "/r/WhiteNoise/Models" && pat == "*.swift" then
        ["Foo.swift", "Bar.swift"]
      else []
    isFile := fun p =>
      p == "/r/WhiteNoise/Models/Foo.swift" ||
      p == "/r/WhiteNoise/Models/Bar.swift"
    listdir := fun _ => []
    isDir := fun _ => false }

/-- A filesystem whose `Sounds` directory contains exactly the subdirectory
`Rain`, holding `rain1.mp3`, `rain2.mp3` and the hidden file `.DS_Store`
(used to witness C10 via the hidden subdirectory `.hidden` it also
exposes, and C6). -/
def soundsFS : FS :=
  { pathExists := fun p => p == "/r/WhiteNoise/Sounds"
    glob := fun p pat =>
      if p == "/r/WhiteNoise/Sounds/Rain" && pat == "*" then
        ["rain1.mp3", "rain2.mp3", ".DS_Store"]
      else []
    isFile := fun p =>
      p == "/r/WhiteNoise/Sounds/Rain/rain1.mp3" ||
      p == "/r/WhiteNoise/Sounds/Rain/rain2.mp3" ||
      p == "/r/WhiteNoise/Sounds/Rain/.DS_Store"
    listdir := fun p => if p == "/r/WhiteNoise/Sounds" then ["Rain", ".hidden"] else []
    isDir := fun p =>
      p == "/r/WhiteNoise/Sounds/Rain" || p == "/r/WhiteNoise/Sounds/.hidden" }

theorem lookupKey_setKey_self (es : List (String × PyVal)) (k : String)
    (v : PyVal) : lookupKey (setKey es k v) k = some v := by
  induction es with
  | nil => simp [setKey, lookupKey]
  | cons p rest ih =>
    obtain ⟨k2, v2⟩ := p
    by_cases hk : k2 = k <;> simp [setKey, lookupKey, hk, ih]

theorem lookupKey_setKey_ne (es : List (String × PyVal)) {k k2 : String}
    (v : PyVal) (h : k2 ≠ k) :
    lookupKey (setKey es k v) k2 = lookupKey es k2 := by
  have hne : ¬ k = k2 := fun hh => h hh.symm
  induction es with
  | nil => simp [setKey, lookupKey, hne]
  | cons p rest ih =>
    obtain ⟨k3, v3⟩ := p
    by_cases hk : k3 = k
    · subst hk
      simp [setKey, lookupKey, hne]
    · by_cases hk2 : k3 = k2 <;> simp [setKey, lookupKey, hk, hk2, ih, h]

theorem setKey_setKey (es : List (String × PyVal)) (k : String) (v w : PyVal) :
    setKey (setKey es k v) k w = setKey es k w := by
  induction es with
  | nil => simp [setKey]
  | cons p rest ih =>
    obtain ⟨k2, v2⟩ := p
    by_cases hk : k2 = k <;> simp [setKey, hk, ih]

theorem setKey_lookup_self {es : List (String × PyVal)} {k : String}
    {v : PyVal} (h : lookupKey es k = some v) : setKey es k v = es := by
  induction es with
  | nil => simp [lookupKey] at h
  | cons p rest ih =>
    obtain ⟨k2, v2⟩ := p
    by_cases hk : k2 = k
    · simp [lookupKey, hk] at h
      simp [setKey, hk, h]
    · simp [lookupKey, hk] at h
      simp [setKey, hk, ih h]

/-- Lifting a fold over a slot-updater through a tree constructor. -/
theorem foldl_lift {β : Type} (T : List (String × PyVal) → β)
    (op1 : List (String × PyVal) → String → List (String × PyVal))
    (op2 : β → String → β)
    (H : ∀ a n, op2 (T a) n = T (op1 a n)) :
    ∀ (xs : List String) (a : List (String × PyVal)),
      xs.foldl op2 (T a) = T (xs.foldl op1 a) := by
  intro xs
  induction xs with
  | nil => intro a; rfl
  | cons n xs ih => intro a; simp only [List.foldl_cons, H, ih]

theorem foldl_setAtL_sub (subdir : String) (Q : String → Bool) (f : String → PyVal) :
    ∀ (xs : List String) (sd cs : List (String × PyVal)) (P0 : String),
      lookupKey sd subdir
        = some (.dict [("type", .str "group"), ("path", .str P0),
                       ("children", .dict cs)]) →
      xs.foldl (fun sd2 n => if Q n = true then setAtL sd2 [subdir, "children"] n (f n) else sd2) sd
        = setKey sd subdir (.dict [("type", .str "group"), ("path", .str P0),
            ("children", .dict (xs.foldl (fun cs2 n =>
              if Q n = true then setKey cs2 n (f n) else cs2) cs))]) := by
  intro xs
  induction xs with
  | nil =>
    intro sd cs P0 h
    simp only [List.foldl_nil]
    exact (setKey_lookup_self h).symm
  | cons n xs ih =>
    intro sd cs P0 h
    simp only [List.foldl_cons]
    by_cases hq : Q n = true
    · rw [if_pos hq, if_pos hq]
      have hstep : setAtL sd [subdir, "children"] n (f n)
          = setKey sd subdir (.dict [("type", .str "group"), ("path", .str P0),
              ("children", .dict (setKey cs n (f n)))]) := by
        simp only [setAtL, h]
        rfl
      rw [hstep, ih _ _ _ (lookupKey_setKey_self sd subdir _), setKey_setKey]
    · rw [if_neg hq, if_neg hq]
      exact ih _ _ _ h

theorem groupStage_models (fs : FS) (base_path : String)
    (m v vm s c e r sd : List (String × PyVal)) :
    (if fs.pathExists (joinPath (joinPath base_path "WhiteNoise") "Models") = true then
      List.foldl (fun st2 name =>
        if fs.isFile (joinPath (joinPath (joinPath base_path "WhiteNoise") "Models") name) = true then
          setAtL st2 ["WhiteNoise", "children", "Models", "children"] name
            (PyVal.dict [("type", PyVal.str "file"),
                         ("path", PyVal.str ("WhiteNoise/" ++ "Models" ++ "/" ++ name))])
        else st2) (mkTree m v vm s c e r sd)
        (fs.glob (joinPath (joinPath base_path "WhiteNoise") "Models") "*.swift")
     else mkTree m v vm s c e r sd)
    = mkTree (scanGroupFiles fs base_path "Models" "*.swift" m) v vm s c e r sd := by
  simp only [scanGroupFiles]
  by_cases hp : fs.pathExists (joinPath (joinPath base_path "WhiteNoise") "Models") = true
  · rw [if_pos hp, if_pos hp]
    apply foldl_lift (fun x => mkTree x v vm s c e r sd)
    intro a n
    by_cases hf : fs.isFile (joinPath (joinPath (joinPath base_path "WhiteNoise") "Models") n) = true
    · rw [if_pos hf, if_pos hf]
      rfl
    · rw [if_neg hf, if_neg hf]
  · rw [if_neg hp, if_neg hp]

theorem groupStage_views (fs : FS) (base_path : String)
    (m v vm s c e r sd : List (String × PyVal)) :
    (if fs.pathExists (joinPath (joinPath base_path "WhiteNoise") "Views") = true then
      List.foldl (fun st2 name =>
        if fs.isFile (joinPath (joinPath (joinPath base_path "WhiteNoise") "Views") name) = true then
          setAtL st2 ["WhiteNoise", "children", "Views", "children"] name
            (PyVal.dict [("type", PyVal.str "file"),
                         ("path", PyVal.str ("WhiteNoise/" ++ "Views" ++ "/" ++ name))])
        else st2) (mkTree m v vm s c e r sd)
        (fs.glob (joinPath (joinPath base_path "WhiteNoise") "Views") "*.swift")
     else mkTree m v vm s c e r sd)
    = mkTree m (scanGroupFiles fs base_path "Views" "*.swift" v) vm s c e r sd := by
  simp only [scanGroupFiles]
  by_cases hp : fs.pathExists (joinPath (joinPath base_path "WhiteNoise") "Views") = true
  · rw [if_pos hp, if_pos hp]
    apply foldl_lift (fun x => mkTree m x vm s c e r sd)
    intro a n
    by_cases hf : fs.isFile (joinPath (joinPath (joinPath base_path "WhiteNoise") "Views") n) = true
    · rw [if_pos hf, if_pos hf]
      rfl
    · rw [if_neg hf, if_neg hf]
  · rw [if_neg hp, if_neg hp]

theorem groupStage_viewModels (fs : FS) (base_path : String)
    (m v vm s c e r sd : List (String × PyVal)) :
    (if fs.pathExists (joinPath (joinPath base_path "WhiteNoise") "ViewModels") = true then
      List.foldl (fun st2 name =>
        if fs.isFile (joinPath (joinPath (joinPath base_path "WhiteNoise") "ViewModels") name) = true then
          setAtL st2 ["WhiteNoise", "children", "ViewModels", "children"] name
            (PyVal.dict [("type", PyVal.str "file"),
                         ("path", PyVal.str ("WhiteNoise/" ++ "ViewModels" ++ "/" ++ name))])
        else st2) (mkTree m v vm s c e r sd)
        (fs.glob (joinPath (joinPath base_path "WhiteNoise") "ViewModels") "*.swift")
     else mkTree m v vm s c e r sd)
    = mkTree m v (scanGroupFiles fs base_path "ViewModels" "*.swift" vm) s c e r sd := by
  simp only [scanGroupFiles]
  by_cases hp : fs.pathExists (joinPath (joinPath base_path "WhiteNoise") "ViewModels") = true
  · rw [if_pos hp, if_pos hp]
    apply foldl_lift (fun x => mkTree m v x s c e r sd)
    intro a n
    by_cases hf : fs.isFile (joinPath (joinPath (joinPath base_path "WhiteNoise") "ViewModels") n) = true
    · rw [if_pos hf, if_pos hf]
      rfl
    · rw [if_neg hf, if_neg hf]
  · rw [if_neg hp, if_neg hp]

theorem groupStage_services (fs : FS) (base_path : String)
    (m v vm s c e r sd : List (String × PyVal)) :
    (if fs.pathExists (joinPath (joinPath base_path "WhiteNoise") "Services") = true then
      List.foldl (fun st2 name =>
        if fs.isFile (joinPath (joinPath (joinPath base_path "WhiteNoise") "Services") name) = true then
          setAtL st2 ["WhiteNoise", "children", "Services", "children"] name
            (PyVal.dict [("type", PyVal.str "file"),
                         ("path", PyVal.str ("WhiteNoise/" ++ "Services" ++ "/" ++ name))])
        else st2) (mkTree m v vm s c e r sd)
        (fs.glob (joinPath (joinPath base_path "WhiteNoise") "Services") "*.swift")
     else mkTree m v vm s c e r sd)
    = mkTree m v vm (scanGroupFiles fs base_path "Services" "*.swift" s) c e r sd := by
  simp only [scanGroupFiles]
  by_cases hp : fs.pathExists (joinPath (joinPath base_path "WhiteNoise") "Services") = true
  · rw [if_pos hp, if_pos hp]
    apply foldl_lift (fun x => mkTree m v vm x c e r sd)
    intro a n
    by_cases hf : fs.isFile (joinPath (joinPath (joinPath base_path "WhiteNoise") "Services") n) = true
    · rw [if_pos hf, if_pos hf]
      rfl
    · rw [if_neg hf, if_neg hf]
  · rw [if_neg hp, if_neg hp]

theorem groupStage_constants (fs : FS) (base_path : String)
    (m v vm s c e r sd : List (String × PyVal)) :
    (if fs.pathExists (joinPath (joinPath base_path "WhiteNoise") "Constants") = true then
      List.foldl (fun st2 name =>
        if fs.isFile (joinPath (joinPath (joinPath base_path "WhiteNoise") "Constants") name) = true then
          setAtL st2 ["WhiteNoise", "children", "Constants", "children"] name
            (PyVal.dict [("type", PyVal.str "file"),
                         ("path", PyVal.str ("WhiteNoise/" ++ "Constants" ++ "/" ++ name))])
        else st2) (mkTree m v vm s c e r sd)
        (fs.glob (joinPath (joinPath base_path "WhiteNoise") "Constants") "*.swift")
     else mkTree m v vm s c e r sd)
    = mkTree m v vm s (scanGroupFiles fs base_path "Constants" "*.swift" c) e r sd := by
  simp only [scanGroupFiles]
  by_cases hp : fs.pathExists (joinPath (joinPath base_path "WhiteNoise") "Constants") = true
  · rw [if_pos hp, if_pos hp]
    apply foldl_lift (fun x => mkTree m v vm s x e r sd)
    intro a n
    by_cases hf : fs.isFile (joinPath (joinPath (joinPath base_path "WhiteNoise") "Constants") n) = true
    · rw [if_pos hf, if_pos hf]
      rfl
    · rw [if_neg hf, if_neg hf]
  · rw [if_neg hp, if_neg hp]

theorem groupStage_extensions (fs : FS) (base_path : String)
    (m v vm s c e r sd : List (String × PyVal)) :
    (if fs.pathExists (joinPath (joinPath base_path "WhiteNoise") "Extensions") = true then
      List.foldl (fun st2 name =>
        if fs.isFile (joinPath (joinPath (joinPath base_path "WhiteNoise") "Extensions") name) = true then
          setAtL st2 ["WhiteNoise", "children", "Extensions", "children"] name
            (PyVal.dict [("type", PyVal.str "file"),
                         ("path", PyVal.str ("WhiteNoise/" ++ "Extensions" ++ "/" ++ name))])
        else st2) (mkTree m v vm s c e r sd)
        (fs.glob (joinPath (joinPath base_path "WhiteNoise") "Extensions") "*.swift")
     else mkTree m v vm s c e r sd)
    = mkTree m v vm s c (scanGroupFiles fs base_path "Extensions" "*.swift" e) r sd := by
  simp only [scanGroupFiles]
  by_cases hp : fs.pathExists (joinPath (joinPath base_path "WhiteNoise") "Extensions") = true
  · rw [if_pos hp, if_pos hp]
    apply foldl_lift (fun x => mkTree m v vm s c x r sd)
    intro a n
    by_cases hf : fs.isFile (joinPath (joinPath (joinPath base_path "WhiteNoise") "Extensions") n) = true
    · rw [if_pos hf, if_pos hf]
      rfl
    · rw [if_neg hf, if_neg hf]
  · rw [if_neg hp, if_neg hp]

theorem groupStage_resources (fs : FS) (base_path : String)
    (m v vm s c e r sd : List (String × PyVal)) :
    (if fs.pathExists (joinPath (joinPath base_path "WhiteNoise") "Resources") = true then
      List.foldl (fun st2 name =>
        if fs.isFile (joinPath (joinPath (joinPath base_path "WhiteNoise") "Resources") name) = true then
          setAtL st2 ["WhiteNoise", "children", "Resources", "children"] name
            (PyVal.dict [("type", PyVal.str "file"),
                         ("path", PyVal.str ("WhiteNoise/" ++ "Resources" ++ "/" ++ name))])
        else st2) (mkTree m v vm s c e r sd)
        (fs.glob (joinPath (joinPath base_path "WhiteNoise") "Resources") "*.json")
     else mkTree m v vm s c e r sd)
    = mkTree m v vm s c e (scanGroupFiles fs base_path "Resources" "*.json" r) sd := by
  simp only [scanGroupFiles]
  by_cases hp : fs.pathExists (joinPath (joinPath base_path "WhiteNoise") "Resources") = true
  · rw [if_pos hp, if_pos hp]
    apply foldl_lift (fun x => mkTree m v vm s c e x sd)
    intro a n
    by_cases hf : fs.isFile (joinPath (joinPath (joinPath base_path "WhiteNoise") "Resources") n) = true
    · rw [if_pos hf, if_pos hf]
      rfl
    · rw [if_neg hf, if_neg hf]
  · rw [if_neg hp, if_neg hp]

theorem soundsStage (fs : FS) (sp : String)
    (m v vm s c e r sd : List (String × PyVal)) :
    (if fs.pathExists sp = true then
      List.foldl (fun st subdir =>
        if fs.isDir (joinPath sp subdir) = true then
          List.foldl (fun st2 name =>
            if (fs.isFile (joinPath (joinPath sp subdir) name) && !startsWithDot name) = true then
              setAtL st2 ["WhiteNoise", "children", "Sounds", "children", subdir, "children"] name
                (PyVal.dict [("type", PyVal.str "file"),
                             ("path", PyVal.str ("WhiteNoise/Sounds/" ++ subdir ++ "/" ++ name))])
            else st2)
            (setAtL st ["WhiteNoise", "children", "Sounds", "children"] subdir
              (PyVal.dict [("type", PyVal.str "group"),
                           ("path", PyVal.str ("WhiteNoise/Sounds/" ++ subdir)),
                           ("children", PyVal.dict [])]))
            (fs.glob (joinPath sp subdir) "*")
        else st)
        (mkTree m v vm s c e r sd) (fs.listdir sp)
     else mkTree m v vm s c e r sd)
    = mkTree m v vm s c e r (scanSounds fs sp sd) := by
  simp only [scanSounds]
  by_cases hp : fs.pathExists sp = true
  · rw [if_pos hp, if_pos hp]
    apply foldl_lift (fun x => mkTree m v vm s c e r x)
    intro a subdir
    by_cases hd : fs.isDir (joinPath sp subdir) = true
    · rw [if_pos hd, if_pos hd]
      have h1 : setAtL (mkTree m v vm s c e r a)
          ["WhiteNoise", "children", "Sounds", "children"] subdir
          (PyVal.dict [("type", PyVal.str "group"),
                       ("path", PyVal.str ("WhiteNoise/Sounds/" ++ subdir)),
                       ("children", PyVal.dict [])])
          = mkTree m v vm s c e r (setKey a subdir
              (PyVal.dict [("type", PyVal.str "group"),
                           ("path", PyVal.str ("WhiteNoise/Sounds/" ++ subdir)),
                           ("children", PyVal.dict [])])) := rfl
      rw [h1]
      rw [foldl_lift (fun x => mkTree m v vm s c e r x)
            (fun a2 n =>
              if (fs.isFile (joinPath (joinPath sp subdir) n) && !startsWithDot n) = true then
                setAtL a2 [subdir, "children"] n
                  (PyVal.dict [("type", PyVal.str "file"),
                               ("path", PyVal.str ("WhiteNoise/Sounds/" ++ subdir ++ "/" ++ n))])
              else a2)
            _
            (fun a2 n => by
              beta_reduce
              by_cases hf : (fs.isFile (joinPath (joinPath sp subdir) n) && !startsWithDot n) = true
              · rw [if_pos hf, if_pos hf]
                rfl
              · rw [if_neg hf, if_neg hf])
            (fs.glob (joinPath sp subdir) "*") _]
      rw [foldl_setAtL_sub subdir
            (fun n => fs.isFile (joinPath (joinPath sp subdir) n) && !startsWithDot n)
            (fun n => PyVal.dict [("type", PyVal.str "file"),
                       ("path", PyVal.str ("WhiteNoise/Sounds/" ++ subdir ++ "/" ++ n))])
            (fs.glob (joinPath sp subdir) "*") _ []
            ("WhiteNoise/Sounds/" ++ subdir)
            (lookupKey_setKey_self a subdir _)]
      rw [setKey_setKey]
      rfl
    · rw [if_neg hd, if_neg hd]
  · rw [if_neg hp, if_neg hp]

theorem scanStages (fs : FS) (base_path : String)
    (m v vm s c e r sd : List (String × PyVal)) :
    (let st := groups_to_scan.foldl (fun st gp =>
      let group_path := joinPath (joinPath base_path "WhiteNoise") gp.1
      if fs.pathExists group_path then
        (fs.glob group_path gp.2).foldl (fun st2 name =>
          if fs.isFile (joinPath group_path name) then
            setAtL st2 ["WhiteNoise", "children", gp.1, "children"] name
              (.dict [("type", .str "file"),
                      ("path", .str ("WhiteNoise/" ++ gp.1 ++ "/" ++ name))])
          else st2) st
      else st) (mkTree m v vm s c e r sd)
     let sounds_path := joinPath (joinPath base_path "WhiteNoise") "Sounds"
     if fs.pathExists sounds_path then
       (fs.listdir sounds_path).foldl (fun st subdir =>
         let subdir_path := joinPath sounds_path subdir
         if fs.isDir subdir_path then
           let st := setAtL st ["WhiteNoise", "children", "Sounds", "children"] subdir
             (.dict [("type", .str "group"),
                     ("path", .str ("WhiteNoise/Sounds/" ++ subdir)),
                     ("children", .dict [])])
           (fs.glob subdir_path "*").foldl (fun st2 name =>
             if fs.isFile (joinPath subdir_path name) && !startsWithDot name then
               setAtL st2 ["WhiteNoise", "children", "Sounds", "children", subdir, "children"] name
                 (.dict [("type", .str "file"),
                         ("path", .str ("WhiteNoise/Sounds/" ++ subdir ++ "/" ++ name))])
             else st2) st
         else st) st
     else st)
    = mkTree (scanGroupFiles fs base_path "Models" "*.swift" m)
             (scanGroupFiles fs base_path "Views" "*.swift" v)
             (scanGroupFiles fs base_path "ViewModels" "*.swift" vm)
             (scanGroupFiles fs base_path "Services" "*.swift" s)
             (scanGroupFiles fs base_path "Constants" "*.swift" c)
             (scanGroupFiles fs base_path "Extensions" "*.swift" e)
             (scanGroupFiles fs base_path "Resources" "*.json" r)
             (scanSounds fs (joinPath (joinPath base_path "WhiteNoise") "Sounds") sd) := by
  simp only [groups_to_scan, List.foldl_cons, List.foldl_nil]
  rw [groupStage_models, groupStage_views, groupStage_viewModels, groupStage_services,
      groupStage_constants, groupStage_extensions, groupStage_resources, soundsStage]

/-- Closed form of `scan_directory`: the template with each scanned group's
children computed directly. -/
theorem scan_directory_eq (fs : FS) (base_path : String) :
    scan_directory fs base_path
      = mkTree (scanGroupFiles fs base_path "Models" "*.swift" [])
               (scanGroupFiles fs base_path "Views" "*.swift" [])
               (scanGroupFiles fs base_path "ViewModels" "*.swift" [])
               (scanGroupFiles fs base_path "Services" "*.swift" [])
               (scanGroupFiles fs base_path "Constants" "*.swift" [])
               (scanGroupFiles fs base_path "Extensions" "*.swift" [])
               (scanGroupFiles fs base_path "Resources" "*.json" [])
               (scanSounds fs (joinPath (joinPath base_path "WhiteNoise") "Sounds") []) :=
  scanStages fs base_path [] [] [] [] [] [] [] []

/-! ## Round trip of serialization (general lemma) -/

mutual

theorem fromJson_toJson (v : PyVal) : fromJson (toJson v) = some v := by
  match v with
  | .str s => rfl
  | .dict es => simp [toJson, fromJson, fromJson_toJsonEntries es]

theorem fromJson_toJsonEntries (es : List (String × PyVal)) :
    fromJsonEntries (toJsonEntries es) = some es := by
  match es with
  | [] => rfl
  | (k, v) :: rest =>
    simp [toJsonEntries, fromJsonEntries, fromJson_toJson v,
          fromJson_toJsonEntries rest]

end

/-! ## Claims -/

/-- C2: for every root path under which the `WhiteNoise` subtree is entirely
absent (every existence check strictly below `<root>/WhiteNoise` answers
false), the builder returns the fixed template tree — all template groups
present, with empty children mappings for the scanned groups — and, being a
total function, does not raise. -/
theorem C2_absent_root_template (fs : FS) (base_path : String)
    (habs : ∀ x, fs.pathExists (joinPath (joinPath base_path "WhiteNoise") x)
      = false) :
    scan_directory fs base_path = mkTree [] [] [] [] [] [] [] [] := by
  rw [scan_directory_eq]
  simp [scanGroupFiles, scanSounds, habs]

/-- Witness for C2 at a concrete filesystem and root. -/
theorem C2_absent_root_template_witness :
    (∀ x, emptyFS.pathExists (joinPath (joinPath "/r" "WhiteNoise") x)
      = false) ∧
    scan_directory emptyFS "/r" = mkTree [] [] [] [] [] [] [] [] :=
  ⟨fun _ => rfl, C2_absent_root_template emptyFS "/r" (fun _ => rfl)⟩

/-- C3: for a root whose `Models` directory exists and contains exactly the
files `Foo.swift` and `Bar.swift` (in that listing order), the `Models`
group of the built tree has a children mapping with exactly those two file
entries, carrying paths `WhiteNoise/Models/Foo.swift` and
`WhiteNoise/Models/Bar.swift`. -/
theorem C3_models_two_files (fs : FS) (base_path : String)
    (hp : fs.pathExists (joinPath (joinPath base_path "WhiteNoise") "Models")
      = true)
    (hg : fs.glob (joinPath (joinPath base_path "WhiteNoise") "Models")
      "*.swift" = ["Foo.swift", "Bar.swift"])
    (h1 : fs.isFile (joinPath (joinPath (joinPath base_path "WhiteNoise")
      "Models") "Foo.swift") = true)
    (h2 : fs.isFile (joinPath (joinPath (joinPath base_path "WhiteNoise")
      "Models") "Bar.swift") = true) :
    getAtL (scan_directory fs base_path)
        ["WhiteNoise", "children", "Models", "children"]
      = some (.dict
          [("Foo.swift", .dict [("type", .str "file"),
              ("path", .str "WhiteNoise/Models/Foo.swift")]),
           ("Bar.swift", .dict [("type", .str "file"),
              ("path", .str "WhiteNoise/Models/Bar.swift")])]) := by
  rw [scan_directory_eq]
  have hnav : ∀ m v vm s c e r sd,
      getAtL (mkTree m v vm s c e r sd)
        ["WhiteNoise", "children", "Models", "children"] = some (.dict m) :=
    fun _ _ _ _ _ _ _ _ => rfl
  rw [hnav]
  have hm : scanGroupFiles fs base_path "Models" "*.swift" []
      = [("Foo.swift", .dict [("type", .str "file"),
            ("path", .str "WhiteNoise/Models/Foo.swift")]),
         ("Bar.swift", .dict [("type", .str "file"),
            ("path", .str "WhiteNoise/Models/Bar.swift")])] := by
    simp only [scanGroupFiles, hp, if_true, hg, List.foldl_cons, List.foldl_nil,
      h1, h2]
    rfl
  rw [hm]

/-- Witness for C3 at a concrete filesystem. -/
theorem C3_models_two_files_witness :
    getAtL (scan_directory modelsFS "/r")
        ["WhiteNoise", "children", "Models", "children"]
      = some (.dict
          [("Foo.swift", .dict [("type", .str "file"),
              ("path", .str "WhiteNoise/Models/Foo.swift")]),
           ("Bar.swift", .dict [("type", .str "file"),
              ("path", .str "WhiteNoise/Models/Bar.swift")])]) :=
  C3_models_two_files modelsFS "/r" rfl rfl rfl rfl

/-- C5: serializing the tree produced by the builder to JSON and parsing the
JSON back yields the identical tree — in particular the same `type` value,
`path` value and children-key set at every node; nothing is lost. -/
theorem C5_json_round_trip (fs : FS) (base_path : String) :
    fromJson (toJson (.dict (scan_directory fs base_path)))
      = some (.dict (scan_directory fs base_path)) :=
  fromJson_toJson _

/-- C6: the builder consults nothing but the filesystem: two runs against a
filesystem whose five query functions answer identically (an unchanged
filesystem) produce identical trees — the same keys and path values at
every node. -/
theorem C6_scan_deterministic (fs fs2 : FS) (base_path : String)
    (h1 : ∀ p, fs.pathExists p = fs2.pathExists p)
    (h2 : ∀ p pat, fs.glob p pat = fs2.glob p pat)
    (h3 : ∀ p, fs.isFile p = fs2.isFile p)
    (h4 : ∀ p, fs.listdir p = fs2.listdir p)
    (h5 : ∀ p, fs.isDir p = fs2.isDir p) :
    scan_directory fs base_path = scan_directory fs2 base_path := by
  have hfs : fs = fs2 := by
    cases fs
    cases fs2
    congr 1
    · funext p; exact h1 p
    · funext p pat; exact h2 p pat
    · funext p; exact h3 p
    · funext p; exact h4 p
    · funext p; exact h5 p
  rw [hfs]

/-- Witness for C6 at a concrete filesystem. -/
theorem C6_scan_deterministic_witness :
    (∀ p, soundsFS.pathExists p = soundsFS.pathExists p) ∧
    scan_directory soundsFS "/r" = scan_directory soundsFS "/r" :=
  ⟨fun _ => rfl,
   C6_scan_deterministic soundsFS soundsFS "/r" (fun _ => rfl)
     (fun _ _ => rfl) (fun _ => rfl) (fun _ => rfl) (fun _ => rfl)⟩

theorem wellFormedEntries_cons (k : String) (v : PyVal)
    (rest : List (String × PyVal)) :
    wellFormedEntries ((k, v) :: rest)
      = (nodeB v && !(rest.any fun p => p.1 == k) && wellFormedEntries rest) := by
  rw [wellFormedEntries]

theorem any_key_setKey {k n : String} (hne : k ≠ n) (v : PyVal)
    (es : List (String × PyVal)) :
    ((setKey es n v).any fun p => p.1 == k) = (es.any fun p => p.1 == k) := by
  have hne2 : ¬ n = k := fun h => hne h.symm
  induction es with
  | nil => simp [setKey, hne2]
  | cons p rest ih =>
    obtain ⟨k2, v2⟩ := p
    by_cases hk : k2 = n
    · subst hk
      simp [setKey, hne2]
    · simp [setKey, hk, ih]

theorem wf_setKey {es : List (String × PyVal)} {k : String} {v : PyVal}
    (hes : wellFormedEntries es = true) (hv : nodeB v = true) :
    wellFormedEntries (setKey es k v) = true := by
  induction es with
  | nil => simp [setKey, wellFormedEntries_cons, wellFormedEntries, hv]
  | cons p rest ih =>
    obtain ⟨k2, v2⟩ := p
    rw [wellFormedEntries_cons] at hes
    simp only [Bool.and_eq_true, Bool.not_eq_true'] at hes
    obtain ⟨⟨h1, h2⟩, h3⟩ := hes
    by_cases hk : k2 = k
    · subst hk
      simp [setKey, wellFormedEntries_cons, hv, h2, h3]
    · simp only [setKey, hk, if_false]
      rw [wellFormedEntries_cons]
      simp [h1, any_key_setKey hk v rest, h2, ih h3]

theorem wellFormedEntries_nil : wellFormedEntries [] = true := by
  rw [wellFormedEntries]

theorem nodeB_fileNode {p : String}
    (hp : List.isPrefixOf "WhiteNoise/".data p.data = true) :
    nodeB (.dict [("type", .str "file"), ("path", .str p)]) = true := by
  simp [nodeB, typeIs, hasKey, lookupKey, pathValOk, hp]

theorem nodeB_groupNode {p : String} {cs : List (String × PyVal)}
    (hp : List.isPrefixOf "WhiteNoise/".data p.data = true)
    (hcs : wellFormedEntries cs = true) :
    nodeB (.dict [("type", .str "group"), ("path", .str p),
                  ("children", .dict cs)]) = true := by
  simp [nodeB, typeIs, hasKey, lookupKey, pathValOk, hp, hcs]

theorem wf_foldl_setKey {f : String → PyVal} {P : String → Bool}
    (hf : ∀ n, nodeB (f n) = true) :
    ∀ (xs : List String) (acc : List (String × PyVal)),
      wellFormedEntries acc = true →
      wellFormedEntries
        (xs.foldl (fun a n => if P n then setKey a n (f n) else a) acc)
        = true := by
  intro xs
  induction xs with
  | nil => intro acc hacc; exact hacc
  | cons n xs ih =>
    intro acc hacc
    simp only [List.foldl_cons]
    by_cases hq : P n
    · rw [if_pos hq]
      exact ih _ (wf_setKey hacc (hf n))
    · rw [if_neg hq]
      exact ih _ hacc

theorem wf_scanGroupFiles (fs : FS) (base_path G pat : String) :
    wellFormedEntries (scanGroupFiles fs base_path G pat []) = true := by
  rw [scanGroupFiles]
  split
  · refine wf_foldl_setKey ?_ _ _ wellFormedEntries_nil
    intro n
    apply nodeB_fileNode
    show List.isPrefixOf "WhiteNoise/".data
      ("WhiteNoise/".data ++ (G ++ "/" ++ n).data) = true
    rw [List.isPrefixOf_iff_prefix]
    exact List.prefix_append _ _
  · exact wellFormedEntries_nil

theorem wf_scanSoundsDir (fs : FS) (subdir_path subdir : String) :
    wellFormedEntries (scanSoundsDir fs subdir_path subdir) = true := by
  rw [scanSoundsDir]
  refine wf_foldl_setKey ?_ _ _ wellFormedEntries_nil
  intro n
  apply nodeB_fileNode
  show List.isPrefixOf "WhiteNoise/".data
    ("WhiteNoise/".data ++ ("Sounds/" ++ subdir ++ "/" ++ n).data) = true
  rw [List.isPrefixOf_iff_prefix]
  exact List.prefix_append _ _

theorem wf_scanSounds (fs : FS) (sounds_path : String) :
    wellFormedEntries (scanSounds fs sounds_path []) = true := by
  rw [scanSounds]
  split
  · refine wf_foldl_setKey ?_ _ _ wellFormedEntries_nil
    intro d
    apply nodeB_groupNode
    · show List.isPrefixOf "WhiteNoise/".data
        ("WhiteNoise/".data ++ ("Sounds/" ++ d).data) = true
      rw [List.isPrefixOf_iff_prefix]
      exact List.prefix_append _ _
    · exact wf_scanSoundsDir fs (joinPath sounds_path d) d
  · exact wellFormedEntries_nil

theorem wf_mkTree {m v vm s c e r sd : List (String × PyVal)}
    (hm : wellFormedEntries m = true) (hv : wellFormedEntries v = true)
    (hvm : wellFormedEntries vm = true) (hs : wellFormedEntries s = true)
    (hc : wellFormedEntries c = true) (he : wellFormedEntries e = true)
    (hr : wellFormedEntries r = true) (hsd : wellFormedEntries sd = true) :
    wellFormedEntries (mkTree m v vm s c e r sd) = true := by
  simp [mkTree, mkChildren, fileNode, groupNode, folderNode, wellFormedEntries_cons,
    wellFormedEntries_nil, nodeB, typeIs, hasKey, lookupKey, pathValOk,
    List.isPrefixOf, hm, hv, hvm, hs, hc, he, hr, hsd]

/-- C7: every node of every tree the builder returns satisfies the
data-model invariants: exactly one kind among group/file/folder, children
only on groups, root-relative forward-slash-joined path strings, and unique
sibling keys in every children mapping. -/
theorem C7_data_model_invariants (fs : FS) (base_path : String) :
    wellFormedEntries (scan_directory fs base_path) = true := by
  rw [scan_directory_eq]
  exact wf_mkTree
    (wf_scanGroupFiles fs base_path "Models" "*.swift")
    (wf_scanGroupFiles fs base_path "Views" "*.swift")
    (wf_scanGroupFiles fs base_path "ViewModels" "*.swift")
    (wf_scanGroupFiles fs base_path "Services" "*.swift")
    (wf_scanGroupFiles fs base_path "Constants" "*.swift")
    (wf_scanGroupFiles fs base_path "Extensions" "*.swift")
    (wf_scanGroupFiles fs base_path "Resources" "*.json")
    (wf_scanSounds fs (joinPath (joinPath base_path "WhiteNoise") "Sounds"))

theorem mem_fileLeafPairs_of_traverse (node : List (String × PyVal))
    (g : String) (rec : FileRec) (hmem : rec ∈ traverseFiles node g) :
    (rec.name, rec.path) ∈ fileLeafPairs node := by
  match node with
  | [] =>
    rw [traverseFiles.eq_1] at hmem
    simp at hmem
  | (key, .str a) :: rest =>
    rw [traverseFiles.eq_2] at hmem
    rw [fileLeafPairs.eq_2]
    simp only [List.nil_append] at hmem ⊢
    exact mem_fileLeafPairs_of_traverse rest g rec hmem
  | (key, .dict es) :: rest =>
    rw [traverseFiles.eq_3] at hmem
    rw [fileLeafPairs.eq_3]
    rcases List.mem_append.mp hmem with h | h
    · apply List.mem_append_left
      by_cases hfile : typeIs es "file" = true
      · rw [if_pos hfile] at h
        simp only [List.mem_singleton] at h
        subst h
        apply List.mem_append_left
        rw [if_pos hfile]
        simp
      · rw [if_neg hfile] at h
        apply List.mem_append_right
        by_cases hgc : (typeIs es "group" && hasKey es "children") = true
        · rw [if_pos hgc] at h
          split at h
          · rename_i cs heq
            exact mem_fileLeafPairs_of_traverse cs _ rec h
          · simp at h
        · rw [if_neg hgc] at h
          by_cases hc2 : hasKey es "children" = true
          · rw [if_pos hc2] at h
            split at h
            · rename_i cs heq
              exact mem_fileLeafPairs_of_traverse cs _ rec h
            · simp at h
          · rw [if_neg hc2] at h
            simp at h
    · exact List.mem_append_right _
        (mem_fileLeafPairs_of_traverse rest g rec h)
termination_by sizeOf node
decreasing_by
  all_goals first
  | (rename_i cs2 heq2
     have h2 := sizeOf_lookupKey heq2
     simp at h2 ⊢
     try omega)
  | (simp
     try omega)

/-- C8: the flattener emits a record only for leaves whose `type` is
`"file"`: every emitted record names a `type == "file"` node of the tree
(`fileLeafPairs` collects exactly the file-typed leaves).  In particular
`folder`-typed leaves, such as the template's `Assets.xcassets` and
`Preview Assets.xcassets` entries, are never emitted as file records. -/
theorem C8_only_file_leaves (st : List (String × PyVal)) (rec : FileRec)
    (hmem : rec ∈ generate_file_list st) :
    (rec.name, rec.path) ∈ fileLeafPairs st :=
  mem_fileLeafPairs_of_traverse st "" rec hmem

/-- Witness for C8 at a concrete tree. -/
theorem C8_only_file_leaves_witness :
    (⟨"A.swift", "WhiteNoise/A.swift", ""⟩ : FileRec) ∈
      generate_file_list [("A.swift",
        PyVal.dict [("type", PyVal.str "file"),
                    ("path", PyVal.str "WhiteNoise/A.swift")])] ∧
    ("A.swift", "WhiteNoise/A.swift") ∈
      fileLeafPairs [("A.swift",
        PyVal.dict [("type", PyVal.str "file"),
                    ("path", PyVal.str "WhiteNoise/A.swift")])] := by
  have hmem : (⟨"A.swift", "WhiteNoise/A.swift", ""⟩ : FileRec) ∈
      generate_file_list [("A.swift",
        PyVal.dict [("type", PyVal.str "file"),
                    ("path", PyVal.str "WhiteNoise/A.swift")])] := by
    simp [generate_file_list, traverseFiles.eq_3, traverseFiles.eq_1,
      typeIs, lookupKey, getPathStr]
  exact ⟨hmem, C8_only_file_leaves _ _ hmem⟩

/-- C9 (amended form): an unrecognized-type node is printed as its bare
name; its nested children are recursed into, but the recursion passes the
node's own mapping, so a bare `children` line appears at the next indent
level and the children themselves are printed two levels deeper. -/
theorem C9_unrecognized_children_two_deeper (key t : String)
    (cs rest : List (String × PyVal)) (indent : Nat)
    (ht1 : t ≠ "group") (ht2 : t ≠ "file") (ht3 : t ≠ "folder")
    (hcs : lookupKey cs "type" = none) :
    print_structure
        ((key, PyVal.dict [("type", PyVal.str t),
                           ("children", PyVal.dict cs)]) :: rest) indent
      = (indent, key) :: (indent + 1, "children") ::
          (print_structure cs (indent + 2) ++ print_structure rest indent) := by
  rw [print_structure.eq_3]
  have e1 : typeIs [("type", PyVal.str t), ("children", PyVal.dict cs)] "group" = false := by
    simp [typeIs, lookupKey, ht1]
  have e2 : typeIs [("type", PyVal.str t), ("children", PyVal.dict cs)] "file" = false := by
    simp [typeIs, lookupKey, ht2]
  have e3 : typeIs [("type", PyVal.str t), ("children", PyVal.dict cs)] "folder" = false := by
    simp [typeIs, lookupKey, ht3]
  rw [e1, e2, e3]
  simp only [Bool.false_eq_true, if_false]
  rw [print_structure.eq_2]
  rw [print_structure.eq_3]
  have f1 : typeIs cs "group" = false := by simp [typeIs, hcs]
  have f2 : typeIs cs "file" = false := by simp [typeIs, hcs]
  have f3 : typeIs cs "folder" = false := by simp [typeIs, hcs]
  rw [f1, f2, f3]
  simp only [Bool.false_eq_true, if_false, print_structure.eq_1]
  simp

/-- C9, counterexample to the claim as stated: for the unrecognized node
`X` (type `"weird"`) with one nested child `a`, the child is printed at
indent level 2, not at the next indent level 1; level 1 instead holds a
bare `children` line. -/
theorem C9_claim_counterexample :
    print_structure [("X", PyVal.dict [("type", PyVal.str "weird"),
        ("children", PyVal.dict [("a", PyVal.dict [("type", PyVal.str "file")])])])] 0
      = [(0, "X"), (1, "children"), (2, "📄 a")] ∧
    (1, "📄 a") ∉ print_structure [("X", PyVal.dict [("type", PyVal.str "weird"),
        ("children", PyVal.dict [("a", PyVal.dict [("type", PyVal.str "file")])])])] 0 := by
  have h : print_structure [("X", PyVal.dict [("type", PyVal.str "weird"),
      ("children", PyVal.dict [("a", PyVal.dict [("type", PyVal.str "file")])])])] 0
      = [(0, "X"), (1, "children"), (2, "📄 a")] := by
    simp [print_structure.eq_3, print_structure.eq_2, print_structure.eq_1,
      typeIs, lookupKey, hasKey, getPathStr]
  refine ⟨h, ?_⟩
  rw [h]
  decide

/-- Witness for the amended C9 at a concrete node and indent. -/
theorem C9_unrecognized_children_two_deeper_witness :
    (("weird" : String) ≠ "group" ∧ ("weird" : String) ≠ "file" ∧
     ("weird" : String) ≠ "folder" ∧
     lookupKey [("a", PyVal.dict [("type", PyVal.str "file")])] "type" = none) ∧
    print_structure [("X", PyVal.dict [("type", PyVal.str "weird"),
        ("children", PyVal.dict [("a", PyVal.dict [("type", PyVal.str "file")])])])] 0
      = (0, "X") :: (1, "children") ::
          (print_structure [("a", PyVal.dict [("type", PyVal.str "file")])] 2
            ++ print_structure [] 0) :=
  ⟨⟨by decide, by decide, by decide, rfl⟩,
   C9_unrecognized_children_two_deeper "X" "weird"
     [("a", PyVal.dict [("type", PyVal.str "file")])] [] 0
     (by decide) (by decide) (by decide) rfl⟩

/-- After the `Sounds` fold, every listed subdirectory that is a directory
has a group entry (its children depending on the files found). -/
theorem scanSounds_lookup (fs : FS) (sp d : String)
    (hdir : fs.isDir (joinPath sp d) = true) :
    ∀ (xs : List String) (init : List (String × PyVal)),
      (d ∈ xs ∨ ∃ cs, lookupKey init d
        = some (.dict [("type", .str "group"),
                       ("path", .str ("WhiteNoise/Sounds/" ++ d)),
                       ("children", .dict cs)])) →
      ∃ cs, lookupKey
        (xs.foldl (fun sd subdir =>
          let subdir_path := joinPath sp subdir
          if fs.isDir subdir_path then
            setKey sd subdir
              (.dict [("type", .str "group"),
                      ("path", .str ("WhiteNoise/Sounds/" ++ subdir)),
                      ("children", .dict (scanSoundsDir fs subdir_path subdir))])
          else sd) init) d
        = some (.dict [("type", .str "group"),
                       ("path", .str ("WhiteNoise/Sounds/" ++ d)),
                       ("children", .dict cs)]) := by
  intro xs
  induction xs with
  | nil =>
    intro init h
    rcases h with h | h
    · simp at h
    · exact h
  | cons subdir xs ih =>
    intro init h
    simp only [List.foldl_cons]
    by_cases hsub : subdir = d
    · subst hsub
      rw [if_pos hdir]
      apply ih
      right
      exact ⟨_, lookupKey_setKey_self init subdir _⟩
    · rcases h with h | h
      · rcases List.mem_cons.mp h with h2 | h2
        · exact absurd h2.symm hsub
        · apply ih
          left
          exact h2
      · apply ih
        right
        obtain ⟨cs, hcs⟩ := h
        by_cases hd2 : fs.isDir (joinPath sp subdir) = true
        · rw [if_pos hd2]
          exact ⟨cs, by rw [lookupKey_setKey_ne _ _ (fun hh => hsub hh.symm)]; exact hcs⟩
        · rw [if_neg hd2]
          exact ⟨cs, hcs⟩

/-- C10: a `Sounds` subdirectory whose name starts with a dot is still added
as a group node under `Sounds` — the hidden-name exclusion applies only to
the files inside each subdirectory, never to the subdirectories
themselves. -/
theorem C10_hidden_subdir_is_group (fs : FS) (base_path d : String)
    (hp : fs.pathExists (joinPath (joinPath base_path "WhiteNoise") "Sounds")
      = true)
    (hd : d ∈ fs.listdir (joinPath (joinPath base_path "WhiteNoise") "Sounds"))
    (hdot : startsWithDot d = true)
    (hdir : fs.isDir (joinPath (joinPath (joinPath base_path "WhiteNoise")
      "Sounds") d) = true) :
    ∃ cs, getAtL (scan_directory fs base_path)
        ["WhiteNoise", "children", "Sounds", "children", d]
      = some (.dict [("type", .str "group"),
                     ("path", .str ("WhiteNoise/Sounds/" ++ d)),
                     ("children", .dict cs)]) := by
  rw [scan_directory_eq]
  have hnav : ∀ m v vm s c e r sd,
      getAtL (mkTree m v vm s c e r sd)
        ["WhiteNoise", "children", "Sounds", "children", d] = getAtL sd [d] :=
    fun _ _ _ _ _ _ _ _ => rfl
  rw [hnav]
  obtain ⟨cs, hcs⟩ := scanSounds_lookup fs
    (joinPath (joinPath base_path "WhiteNoise") "Sounds") d hdir
    (fs.listdir (joinPath (joinPath base_path "WhiteNoise") "Sounds")) []
    (Or.inl hd)
  refine ⟨cs, ?_⟩
  rw [scanSounds, if_pos hp]
  rw [getAtL, hcs]
  rfl

/-- Witness for C10 at a concrete filesystem with hidden subdirectory
`.hidden` under `Sounds`. -/
theorem C10_hidden_subdir_is_group_witness :
    (soundsFS.pathExists (joinPath (joinPath "/r" "WhiteNoise") "Sounds")
       = true ∧
     ".hidden" ∈ soundsFS.listdir (joinPath (joinPath "/r" "WhiteNoise")
       "Sounds") ∧
     startsWithDot ".hidden" = true ∧
     soundsFS.isDir (joinPath (joinPath (joinPath "/r" "WhiteNoise") "Sounds")
       ".hidden") = true) ∧
    ∃ cs, getAtL (scan_directory soundsFS "/r")
        ["WhiteNoise", "children", "Sounds", "children", ".hidden"]
      = some (.dict [("type", .str "group"),
                     ("path", .str ("WhiteNoise/Sounds/" ++ ".hidden")),
                     ("children", .dict cs)]) :=
  ⟨⟨rfl, by decide, by decide, rfl⟩,
   C10_hidden_subdir_is_group soundsFS "/r" ".hidden" rfl (by decide)
     (by decide) rfl⟩

/-- The flat file list of the closed-form tree: the four fixed `App` file
records followed by the traversal of each scanned group's children under
its slash-joined group string. -/
theorem generate_file_list_mkTree (m v vm s c e r sd : List (String × PyVal)) :
    generate_file_list (mkTree m v vm s c e r sd)
      = [(⟨"WhiteNoiseApp.swift", "WhiteNoise/WhiteNoiseApp.swift", "WhiteNoise/App"⟩ : FileRec),
         ⟨"Info.plist", "WhiteNoise/Info.plist", "WhiteNoise/App"⟩,
         ⟨"WhiteNoise.entitlements", "WhiteNoise/WhiteNoise.entitlements", "WhiteNoise/App"⟩,
         ⟨"LaunchScreen.storyboard", "WhiteNoise/LaunchScreen.storyboard", "WhiteNoise/App"⟩]
        ++ traverseFiles m "WhiteNoise/Models"
        ++ traverseFiles v "WhiteNoise/Views"
        ++ traverseFiles vm "WhiteNoise/ViewModels"
        ++ traverseFiles s "WhiteNoise/Services"
        ++ traverseFiles c "WhiteNoise/Constants"
        ++ traverseFiles e "WhiteNoise/Extensions"
        ++ traverseFiles r "WhiteNoise/Resources"
        ++ traverseFiles sd "WhiteNoise/Sounds" := by
  simp [generate_file_list, traverseFiles.eq_3, traverseFiles.eq_2,
    traverseFiles.eq_1, mkTree, mkChildren, fileNode, groupNode, folderNode, typeIs,
    hasKey, lookupKey, getPathStr]

theorem mem_setKey {p : String × PyVal} {es : List (String × PyVal)}
    {k : String} {v : PyVal} (h : p ∈ setKey es k v) :
    p = (k, v) ∨ p ∈ es := by
  induction es with
  | nil =>
    simp [setKey] at h
    exact Or.inl h
  | cons q rest ih =>
    obtain ⟨k2, v2⟩ := q
    by_cases hk : k2 = k
    · subst hk
      simp only [setKey, if_pos rfl] at h
      rcases List.mem_cons.mp h with h | h
      · exact Or.inl h
      · exact Or.inr (List.mem_cons_of_mem _ h)
    · simp only [setKey, if_neg hk] at h
      rcases List.mem_cons.mp h with h | h
      · exact Or.inr (h ▸ List.mem_cons_self _ _)
      · rcases ih h with h2 | h2
        · exact Or.inl h2
        · exact Or.inr (List.mem_cons_of_mem _ h2)

theorem mem_foldl_setKey {Q : String × PyVal → Prop} {f : String → PyVal}
    {P : String → Bool} :
    ∀ (xs : List String) (init : List (String × PyVal)),
      (∀ n ∈ xs, Q (n, f n)) → (∀ p ∈ init, Q p) →
      ∀ p ∈ xs.foldl (fun a n => if P n then setKey a n (f n) else a) init,
        Q p := by
  intro xs
  induction xs with
  | nil =>
    intro init _ hinit p hp
    exact hinit p hp
  | cons n xs ih =>
    intro init hf hinit p hp
    simp only [List.foldl_cons] at hp
    by_cases hq : P n = true
    · rw [if_pos hq] at hp
      refine ih _ (fun n2 hn2 => hf n2 (List.mem_cons_of_mem _ hn2)) ?_ p hp
      intro q hq2
      rcases mem_setKey hq2 with h | h
      · exact h ▸ hf n (List.mem_cons_self _ _)
      · exact hinit q h
    · rw [if_neg hq] at hp
      exact ih _ (fun n2 hn2 => hf n2 (List.mem_cons_of_mem _ hn2)) hinit p hp

theorem scanGroupFiles_shape (fs : FS) (base_path G pat : String) :
    ∀ p ∈ scanGroupFiles fs base_path G pat [],
      p.2 = PyVal.dict [("type", PyVal.str "file"),
        ("path", PyVal.str ("WhiteNoise/" ++ G ++ "/" ++ p.1))] := by
  rw [scanGroupFiles]
  split
  · refine mem_foldl_setKey _ _ (fun n _ => rfl) ?_
    intro p hp
    simp at hp
  · intro p hp
    simp at hp

theorem scanSoundsDir_shape (fs : FS) (subdir_path subdir : String) :
    ∀ p ∈ scanSoundsDir fs subdir_path subdir,
      p.2 = PyVal.dict [("type", PyVal.str "file"),
        ("path", PyVal.str ("WhiteNoise/Sounds/" ++ subdir ++ "/" ++ p.1))] := by
  rw [scanSoundsDir]
  refine mem_foldl_setKey _ _ (fun n _ => rfl) ?_
  intro p hp
  simp at hp

theorem scanSounds_shape (fs : FS) (sounds_path : String) :
    ∀ p ∈ scanSounds fs sounds_path [],
      p.1 ∈ fs.listdir sounds_path ∧
      ∃ cs, p.2 = PyVal.dict [("type", PyVal.str "group"),
          ("path", PyVal.str ("WhiteNoise/Sounds/" ++ p.1)),
          ("children", PyVal.dict cs)] ∧
        ∀ q ∈ cs, q.2 = PyVal.dict [("type", PyVal.str "file"),
          ("path", PyVal.str ("WhiteNoise/Sounds/" ++ p.1 ++ "/" ++ q.1))] := by
  rw [scanSounds]
  split
  · refine mem_foldl_setKey _ _ ?_ ?_
    · intro n hn
      exact ⟨hn, scanSoundsDir fs (joinPath sounds_path n) n, rfl,
             scanSoundsDir_shape fs (joinPath sounds_path n) n⟩
    · intro p hp
      simp at hp
  · intro p hp
    simp at hp

theorem traverseFiles_fileNodes {F : String → String} :
    ∀ (es : List (String × PyVal)) (g : String),
      (∀ p ∈ es, p.2 = PyVal.dict [("type", PyVal.str "file"),
        ("path", PyVal.str (F p.1))]) →
      traverseFiles es g = es.map (fun p => (⟨p.1, F p.1, g⟩ : FileRec)) := by
  intro es
  induction es with
  | nil =>
    intro g _
    rw [traverseFiles.eq_1]
    rfl
  | cons p rest ih =>
    intro g h
    obtain ⟨n, v⟩ := p
    have hv := h (n, v) (List.mem_cons_self _ _)
    dsimp at hv
    subst hv
    rw [traverseFiles.eq_3]
    have ht : typeIs [("type", PyVal.str "file"),
        ("path", PyVal.str (F n))] "file" = true := rfl
    rw [ht, if_pos rfl]
    have hrest := ih g (fun q hq => h q (List.mem_cons_of_mem _ hq))
    rw [hrest]
    rfl

theorem mem_traverseFiles_groupList {g : String} (hg : ¬ g = "") :
    ∀ (sd : List (String × PyVal)),
      (∀ p ∈ sd, ∃ cs, p.2 = PyVal.dict [("type", PyVal.str "group"),
        ("path", PyVal.str ("WhiteNoise/Sounds/" ++ p.1)),
        ("children", PyVal.dict cs)]) →
      ∀ rec : FileRec, rec ∈ traverseFiles sd g →
      ∃ d cs, (d, PyVal.dict [("type", PyVal.str "group"),
          ("path", PyVal.str ("WhiteNoise/Sounds/" ++ d)),
          ("children", PyVal.dict cs)]) ∈ sd ∧
        rec ∈ traverseFiles cs (g ++ "/" ++ d) := by
  intro sd
  induction sd with
  | nil =>
    intro _ rec hmem
    rw [traverseFiles.eq_1] at hmem
    simp at hmem
  | cons p rest ih =>
    intro h rec hmem
    obtain ⟨d, v⟩ := p
    obtain ⟨cs, hv⟩ := h (d, v) (List.mem_cons_self _ _)
    dsimp at hv
    subst hv
    rw [traverseFiles.eq_3] at hmem
    have h1 : typeIs [("type", PyVal.str "group"),
        ("path", PyVal.str ("WhiteNoise/Sounds/" ++ d)),
        ("children", PyVal.dict cs)] "file" = false := rfl
    have h2 : typeIs [("type", PyVal.str "group"),
        ("path", PyVal.str ("WhiteNoise/Sounds/" ++ d)),
        ("children", PyVal.dict cs)] "group" = true := rfl
    have h3 : hasKey [("type", PyVal.str "group"),
        ("path", PyVal.str ("WhiteNoise/Sounds/" ++ d)),
        ("children", PyVal.dict cs)] "children" = true := rfl
    rw [h1, h2, h3] at hmem
    simp only [Bool.false_eq_true, if_false, Bool.true_and, if_pos rfl] at hmem
    have h4 : lookupKey [("type", PyVal.str "group"),
        ("path", PyVal.str ("WhiteNoise/Sounds/" ++ d)),
        ("children", PyVal.dict cs)] "children" = some (PyVal.dict cs) := rfl
    rw [h4] at hmem
    rcases List.mem_append.mp hmem with hcase | hcase
    · rw [if_neg hg] at hcase
      exact ⟨d, cs, List.mem_cons_self _ _, hcase⟩
    · obtain ⟨d2, cs2, hmem2, hrec2⟩ :=
        ih (fun q hq => h q (List.mem_cons_of_mem _ hq)) rec hcase
      exact ⟨d2, cs2, List.mem_cons_of_mem _ hmem2, hrec2⟩

theorem splitChar_ne_nil (c : Char) : ∀ xs : List Char, splitChar c xs ≠ [] := by
  intro xs
  induction xs with
  | nil => simp [splitChar]
  | cons x xs ih =>
    by_cases hx : x = c
    · simp [splitChar, hx]
    · simp only [splitChar, if_neg hx]
      match hsp : splitChar c xs with
      | [] => exact absurd hsp ih
      | g :: gs => simp

theorem splitChar_append (c : Char) :
    ∀ xs ys : List Char,
      splitChar c (xs ++ c :: ys) = splitChar c xs ++ splitChar c ys := by
  intro xs ys
  induction xs with
  | nil => simp [splitChar]
  | cons x xs ih =>
    by_cases hx : x = c
    · subst hx
      simp only [List.cons_append, List.append_eq, splitChar, if_pos rfl]
      rw [ih]
      simp
    · simp only [List.cons_append, List.append_eq, splitChar, if_neg hx]
      rw [ih]
      match hsp : splitChar c xs with
      | [] => exact absurd hsp (splitChar_ne_nil c xs)
      | g :: gs => simp

theorem splitChar_not_mem (c : Char) :
    ∀ xs : List Char, c ∉ xs → splitChar c xs = [xs] := by
  intro xs
  induction xs with
  | nil => simp [splitChar]
  | cons x xs ih =>
    intro h
    have hx : ¬ x = c := fun hh => h (hh ▸ List.mem_cons_self _ _)
    have hxs : c ∉ xs := fun hh => h (List.mem_cons_of_mem _ hh)
    simp only [splitChar, if_neg hx, ih hxs]

theorem splitSlash_append (a b : String) (hb : '/' ∉ b.data) :
    splitSlash (a ++ "/" ++ b) = splitSlash a ++ [b] := by
  have hd : (a ++ "/" ++ b).data = a.data ++ '/' :: b.data := by
    have h0 : (a ++ "/" ++ b).data = (a.data ++ ['/']) ++ b.data := rfl
    rw [h0, List.append_assoc]
    rfl
  rw [splitSlash, hd, splitChar_append, splitChar_not_mem '/' b.data hb]
  rw [List.map_append]
  rfl

theorem fileChain_root {m v vm s c e r sd : List (String × PyVal)}
    {chain : List String} {name path : String}
    (h : FileChain (mkChildren m v vm s c e r sd) chain name path) :
    FileChain (mkTree m v vm s c e r sd) ("WhiteNoise" :: chain) name path :=
  FileChain.group (List.Mem.head _) rfl rfl h

theorem fileChain_leaf {st : List (String × PyVal)} {name path : String}
    (hmem : (name, PyVal.dict [("type", PyVal.str "file"),
      ("path", PyVal.str path)]) ∈ st) :
    FileChain st [] name path :=
  FileChain.file hmem rfl rfl

theorem fileChain_slot {st : List (String × PyVal)} {G P0 g : String}
    {slot : List (String × PyVal)} {F : String → String}
    (hmem : (G, PyVal.dict [("type", PyVal.str "group"),
      ("path", PyVal.str P0), ("children", PyVal.dict slot)]) ∈ st)
    (hshape : ∀ p ∈ slot, p.2 = PyVal.dict [("type", PyVal.str "file"),
      ("path", PyVal.str (F p.1))])
    (rec : FileRec) (hrec : rec ∈ traverseFiles slot g) :
    FileChain st [G] rec.name rec.path ∧ rec.group = g := by
  rw [traverseFiles_fileNodes slot g hshape] at hrec
  obtain ⟨p, hp, heq⟩ := List.mem_map.mp hrec
  subst heq
  refine ⟨FileChain.group hmem rfl rfl (fileChain_leaf ?_), rfl⟩
  have hsh := hshape p hp
  rw [← hsh]
  exact hp

/-- C1: for every tree produced by the builder (over a filesystem whose
`Sounds` subdirectory names contain no slash, as real directory entries
never do), every record emitted by the flattener has a `group` string that,
split on `"/"`, is exactly the chain of ancestor group names from the root
group down to, but excluding, the file itself. -/
theorem C1_flatten_group_chain (fs : FS) (base_path : String)
    (hnames : ∀ d ∈ fs.listdir (joinPath (joinPath base_path "WhiteNoise")
      "Sounds"), '/' ∉ d.data) :
    ∀ rec ∈ generate_file_list (scan_directory fs base_path),
      FileChain (scan_directory fs base_path) (splitSlash rec.group)
        rec.name rec.path := by
  intro rec hmem
  rw [scan_directory_eq] at hmem ⊢
  rw [generate_file_list_mkTree] at hmem
  simp only [List.mem_append] at hmem
  rcases hmem with ((((((((happ | hm) | hv) | hvm) | hs) | hc) | he) | hr) | hsd)
  · simp only [List.mem_cons, List.not_mem_nil, or_false] at happ
    rcases happ with h | h | h | h
    · subst h
      rw [show splitSlash (FileRec.group ⟨"WhiteNoiseApp.swift",
        "WhiteNoise/WhiteNoiseApp.swift", "WhiteNoise/App"⟩)
        = ["WhiteNoise", "App"] from by decide]
      exact fileChain_root (FileChain.group (List.Mem.head _) rfl rfl
        (fileChain_leaf (List.Mem.head _)))
    · subst h
      rw [show splitSlash (FileRec.group ⟨"Info.plist",
        "WhiteNoise/Info.plist", "WhiteNoise/App"⟩)
        = ["WhiteNoise", "App"] from by decide]
      exact fileChain_root (FileChain.group (List.Mem.head _) rfl rfl
        (fileChain_leaf (List.Mem.tail _ (List.Mem.head _))))
    · subst h
      rw [show splitSlash (FileRec.group ⟨"WhiteNoise.entitlements",
        "WhiteNoise/WhiteNoise.entitlements", "WhiteNoise/App"⟩)
        = ["WhiteNoise", "App"] from by decide]
      exact fileChain_root (FileChain.group (List.Mem.head _) rfl rfl
        (fileChain_leaf (List.Mem.tail _ (List.Mem.tail _ (List.Mem.head _)))))
    · subst h
      rw [show splitSlash (FileRec.group ⟨"LaunchScreen.storyboard",
        "WhiteNoise/LaunchScreen.storyboard", "WhiteNoise/App"⟩)
        = ["WhiteNoise", "App"] from by decide]
      exact fileChain_root (FileChain.group (List.Mem.head _) rfl rfl
        (fileChain_leaf (List.Mem.tail _ (List.Mem.tail _
          (List.Mem.tail _ (List.Mem.head _))))))
  · obtain ⟨hchain, hg⟩ := fileChain_slot
      (List.Mem.tail _ (List.Mem.head _))
      (scanGroupFiles_shape fs base_path "Models" "*.swift") rec hm
    rw [hg, show splitSlash "WhiteNoise/Models"
      = ["WhiteNoise", "Models"] from by decide]
    exact fileChain_root hchain
  · obtain ⟨hchain, hg⟩ := fileChain_slot
      (List.Mem.tail _ (List.Mem.tail _ (List.Mem.head _)))
      (scanGroupFiles_shape fs base_path "Views" "*.swift") rec hv
    rw [hg, show splitSlash "WhiteNoise/Views"
      = ["WhiteNoise", "Views"] from by decide]
    exact fileChain_root hchain
  · obtain ⟨hchain, hg⟩ := fileChain_slot
      (List.Mem.tail _ (List.Mem.tail _ (List.Mem.tail _ (List.Mem.head _))))
      (scanGroupFiles_shape fs base_path "ViewModels" "*.swift") rec hvm
    rw [hg, show splitSlash "WhiteNoise/ViewModels"
      = ["WhiteNoise", "ViewModels"] from by decide]
    exact fileChain_root hchain
  · obtain ⟨hchain, hg⟩ := fileChain_slot
      (List.Mem.tail _ (List.Mem.tail _ (List.Mem.tail _ (List.Mem.tail _
        (List.Mem.head _)))))
      (scanGroupFiles_shape fs base_path "Services" "*.swift") rec hs
    rw [hg, show splitSlash "WhiteNoise/Services"
      = ["WhiteNoise", "Services"] from by decide]
    exact fileChain_root hchain
  · obtain ⟨hchain, hg⟩ := fileChain_slot
      (List.Mem.tail _ (List.Mem.tail _ (List.Mem.tail _ (List.Mem.tail _
        (List.Mem.tail _ (List.Mem.head _))))))
      (scanGroupFiles_shape fs base_path "Constants" "*.swift") rec hc
    rw [hg, show splitSlash "WhiteNoise/Constants"
      = ["WhiteNoise", "Constants"] from by decide]
    exact fileChain_root hchain
  · obtain ⟨hchain, hg⟩ := fileChain_slot
      (List.Mem.tail _ (List.Mem.tail _ (List.Mem.tail _ (List.Mem.tail _
        (List.Mem.tail _ (List.Mem.tail _ (List.Mem.head _)))))))
      (scanGroupFiles_shape fs base_path "Extensions" "*.swift") rec he
    rw [hg, show splitSlash "WhiteNoise/Extensions"
      = ["WhiteNoise", "Extensions"] from by decide]
    exact fileChain_root hchain
  · obtain ⟨hchain, hg⟩ := fileChain_slot
      (List.Mem.tail _ (List.Mem.tail _ (List.Mem.tail _ (List.Mem.tail _
        (List.Mem.tail _ (List.Mem.tail _ (List.Mem.tail _ (List.Mem.head _))))))))
      (scanGroupFiles_shape fs base_path "Resources" "*.json") rec hr
    rw [hg, show splitSlash "WhiteNoise/Resources"
      = ["WhiteNoise", "Resources"] from by decide]
    exact fileChain_root hchain
  · have hshape := scanSounds_shape fs
      (joinPath (joinPath base_path "WhiteNoise") "Sounds")
    obtain ⟨d, cs, hmemSD, hrec2⟩ := mem_traverseFiles_groupList
      (g := "WhiteNoise/Sounds") (by decide) _
      (fun p hp => Exists.imp (fun cs h => h.1) (hshape p hp).2) rec hsd
    obtain ⟨hd_listdir, cs2, heq2, hfiles⟩ := hshape _ hmemSD
    have hcs : cs2 = cs := by
      simp only at heq2
      injection heq2 with h1
      injection h1 with h2 h3
      injection h3 with h4 h5
      injection h5 with h6 h7
      injection h6 with h8 h9
      injection h9 with h10
      exact h10.symm
    subst hcs
    rw [traverseFiles_fileNodes _ _ hfiles] at hrec2
    obtain ⟨p, hp, heq⟩ := List.mem_map.mp hrec2
    subst heq
    have hb : '/' ∉ d.data := hnames d hd_listdir
    have hsplit : splitSlash ("WhiteNoise/Sounds" ++ "/" ++ d)
        = ["WhiteNoise", "Sounds", d] := by
      rw [splitSlash_append "WhiteNoise/Sounds" d hb]
      rw [show splitSlash "WhiteNoise/Sounds"
        = ["WhiteNoise", "Sounds"] from by decide]
      rfl
    show FileChain _ (splitSlash ("WhiteNoise/Sounds" ++ "/" ++ d)) _ _
    rw [hsplit]
    have hmemS : ("Sounds", PyVal.dict [("type", PyVal.str "group"),
        ("path", PyVal.str "WhiteNoise/Sounds"),
        ("children", PyVal.dict (scanSounds fs
          (joinPath (joinPath base_path "WhiteNoise") "Sounds") []))]) ∈
        mkChildren (scanGroupFiles fs base_path "Models" "*.swift" [])
          (scanGroupFiles fs base_path "Views" "*.swift" [])
          (scanGroupFiles fs base_path "ViewModels" "*.swift" [])
          (scanGroupFiles fs base_path "Services" "*.swift" [])
          (scanGroupFiles fs base_path "Constants" "*.swift" [])
          (scanGroupFiles fs base_path "Extensions" "*.swift" [])
          (scanGroupFiles fs base_path "Resources" "*.json" [])
          (scanSounds fs (joinPath (joinPath base_path "WhiteNoise")
            "Sounds") []) :=
      List.Mem.tail _ (List.Mem.tail _ (List.Mem.tail _ (List.Mem.tail _
        (List.Mem.tail _ (List.Mem.tail _ (List.Mem.tail _ (List.Mem.tail _
          (List.Mem.head _))))))))
    refine fileChain_root (FileChain.group hmemS rfl rfl
      (FileChain.group hmemSD rfl rfl (fileChain_leaf ?_)))
    · have hsh := hfiles p hp
      rw [← hsh]
      exact hp

/-- Witness for C1 at a concrete filesystem and record. -/
theorem C1_flatten_group_chain_witness :
    (∀ d ∈ emptyFS.listdir (joinPath (joinPath "/r" "WhiteNoise") "Sounds"),
      '/' ∉ d.data) ∧
    FileChain (scan_directory emptyFS "/r") (splitSlash "WhiteNoise/App")
      "WhiteNoiseApp.swift" "WhiteNoise/WhiteNoiseApp.swift" := by
  refine ⟨fun d hd => by simp [emptyFS] at hd, ?_⟩
  apply C1_flatten_group_chain emptyFS "/r"
    (fun d hd => by simp [emptyFS] at hd)
    ⟨"WhiteNoiseApp.swift", "WhiteNoise/WhiteNoiseApp.swift", "WhiteNoise/App"⟩
  rw [scan_directory_eq, generate_file_list_mkTree]
  simp [scanGroupFiles, scanSounds, emptyFS, traverseFiles.eq_1]

theorem filter_group_ne {slot : List (String × PyVal)} {F : String → String}
    {g t : String} (hshape : ∀ p ∈ slot, p.2 = PyVal.dict
      [("type", PyVal.str "file"), ("path", PyVal.str (F p.1))])
    (hne : (g == t) = false) :
    (traverseFiles slot g).filter (fun r => r.group == t) = [] := by
  rw [traverseFiles_fileNodes _ _ hshape]
  rw [List.filter_eq_nil]
  intro rec hrec
  obtain ⟨p, hp, heq⟩ := List.mem_map.mp hrec
  subst heq
  simp [hne]

/-- C4: for a `Sounds/Rain` subdirectory containing exactly `rain1.mp3`,
`rain2.mp3` and the hidden file `.DS_Store`, the flattened output contains
exactly two file records under group `"WhiteNoise/Sounds/Rain"`; the hidden
file (name starting with a dot) is excluded. -/
theorem C4_hidden_file_excluded (fs : FS) (base_path : String)
    (hp : fs.pathExists (joinPath (joinPath base_path "WhiteNoise") "Sounds")
      = true)
    (hld : fs.listdir (joinPath (joinPath base_path "WhiteNoise") "Sounds")
      = ["Rain"])
    (hdir : fs.isDir (joinPath (joinPath (joinPath base_path "WhiteNoise")
      "Sounds") "Rain") = true)
    (hglob : fs.glob (joinPath (joinPath (joinPath base_path "WhiteNoise")
      "Sounds") "Rain") "*" = ["rain1.mp3", "rain2.mp3", ".DS_Store"])
    (hf1 : fs.isFile (joinPath (joinPath (joinPath (joinPath base_path
      "WhiteNoise") "Sounds") "Rain") "rain1.mp3") = true)
    (hf2 : fs.isFile (joinPath (joinPath (joinPath (joinPath base_path
      "WhiteNoise") "Sounds") "Rain") "rain2.mp3") = true)
    (hf3 : fs.isFile (joinPath (joinPath (joinPath (joinPath base_path
      "WhiteNoise") "Sounds") "Rain") ".DS_Store") = true) :
    (generate_file_list (scan_directory fs base_path)).filter
        (fun r => r.group == "WhiteNoise/Sounds/Rain")
      = [⟨"rain1.mp3", "WhiteNoise/Sounds/Rain/rain1.mp3",
          "WhiteNoise/Sounds/Rain"⟩,
         ⟨"rain2.mp3", "WhiteNoise/Sounds/Rain/rain2.mp3",
          "WhiteNoise/Sounds/Rain"⟩] := by
  rw [scan_directory_eq, generate_file_list_mkTree]
  have hinner : scanSoundsDir fs (joinPath (joinPath (joinPath base_path
      "WhiteNoise") "Sounds") "Rain") "Rain"
      = [("rain1.mp3", PyVal.dict [("type", PyVal.str "file"),
          ("path", PyVal.str "WhiteNoise/Sounds/Rain/rain1.mp3")]),
         ("rain2.mp3", PyVal.dict [("type", PyVal.str "file"),
          ("path", PyVal.str "WhiteNoise/Sounds/Rain/rain2.mp3")])] := by
    rw [scanSoundsDir, hglob]
    simp only [List.foldl_cons, List.foldl_nil, hf1, hf2, hf3,
      show startsWithDot "rain1.mp3" = false from by decide,
      show startsWithDot "rain2.mp3" = false from by decide,
      show startsWithDot ".DS_Store" = true from by decide]
    simp [setKey]
  have hsd : scanSounds fs (joinPath (joinPath base_path "WhiteNoise")
      "Sounds") []
      = [("Rain", PyVal.dict [("type", PyVal.str "group"),
          ("path", PyVal.str "WhiteNoise/Sounds/Rain"),
          ("children", PyVal.dict
            [("rain1.mp3", PyVal.dict [("type", PyVal.str "file"),
              ("path", PyVal.str "WhiteNoise/Sounds/Rain/rain1.mp3")]),
             ("rain2.mp3", PyVal.dict [("type", PyVal.str "file"),
              ("path", PyVal.str "WhiteNoise/Sounds/Rain/rain2.mp3")])])])] := by
    rw [scanSounds, if_pos hp, hld]
    simp only [List.foldl_cons, List.foldl_nil, hdir, if_true, hinner]
    simp [setKey]
  rw [hsd]
  have htsd : traverseFiles [("Rain", PyVal.dict [("type", PyVal.str "group"),
      ("path", PyVal.str "WhiteNoise/Sounds/Rain"),
      ("children", PyVal.dict
        [("rain1.mp3", PyVal.dict [("type", PyVal.str "file"),
          ("path", PyVal.str "WhiteNoise/Sounds/Rain/rain1.mp3")]),
         ("rain2.mp3", PyVal.dict [("type", PyVal.str "file"),
          ("path", PyVal.str "WhiteNoise/Sounds/Rain/rain2.mp3")])])])]
      "WhiteNoise/Sounds"
      = [⟨"rain1.mp3", "WhiteNoise/Sounds/Rain/rain1.mp3",
          "WhiteNoise/Sounds/Rain"⟩,
         ⟨"rain2.mp3", "WhiteNoise/Sounds/Rain/rain2.mp3",
          "WhiteNoise/Sounds/Rain"⟩] := by
    simp [traverseFiles.eq_3, traverseFiles.eq_1, typeIs, hasKey, lookupKey,
      getPathStr]
  rw [htsd]
  simp only [List.filter_append]
  rw [filter_group_ne (scanGroupFiles_shape fs base_path "Models" "*.swift")
        (by decide),
      filter_group_ne (scanGroupFiles_shape fs base_path "Views" "*.swift")
        (by decide),
      filter_group_ne (scanGroupFiles_shape fs base_path "ViewModels"
        "*.swift") (by decide),
      filter_group_ne (scanGroupFiles_shape fs base_path "Services" "*.swift")
        (by decide),
      filter_group_ne (scanGroupFiles_shape fs base_path "Constants"
        "*.swift") (by decide),
      filter_group_ne (scanGroupFiles_shape fs base_path "Extensions"
        "*.swift") (by decide),
      filter_group_ne (scanGroupFiles_shape fs base_path "Resources" "*.json")
        (by decide)]
  simp

/-- Witness for C4 at a concrete filesystem. -/
theorem C4_hidden_file_excluded_witness :
    rainFS.listdir (joinPath (joinPath "/r" "WhiteNoise") "Sounds") = ["Rain"]
    ∧
    (generate_file_list (scan_directory rainFS "/r")).filter
        (fun r => r.group == "WhiteNoise/Sounds/Rain")
      = [⟨"rain1.mp3", "WhiteNoise/Sounds/Rain/rain1.mp3",
          "WhiteNoise/Sounds/Rain"⟩,
         ⟨"rain2.mp3", "WhiteNoise/Sounds/Rain/rain2.mp3",
          "WhiteNoise/Sounds/Rain"⟩] :=
  ⟨rfl, C4_hidden_file_excluded rainFS "/r" rfl rfl rfl rfl rfl rfl rfl⟩
